import Mathlib

/-!
Verification of the stock-analysis backend (`backend/app/main.py`,
`backend/app/indicators.py`) against its specification.

Modelling conventions:
* Python floats are modelled as exact rationals (`ℚ`); where IEEE special
  values (NaN, ±inf) are semantically relevant (volume sanitization) a
  dedicated inductive `PyFloat` is used instead.
* Wall-clock time (`time.time()`) is a `ℚ` parameter threaded explicitly.
* The in-memory caches (Python dicts keyed by symbol tuples) are modelled
  extensionally as functions `K → Option (ℚ × V)` (expiry, value).
* Fallible upstream calls are modelled by explicit outcome data
  (`AttemptOutcome`), and Python exceptions by `Except`/`Option`.
-/

namespace StockDash

/-! ## TTL cache (`_cache_get` / `_cache_set` in main.py)

`CACHE_TTL_SECONDS` is an `Int` (Python `int(...)`); `time.time()` is a
rational `now`.  A store maps keys to `(expires_at, value)` pairs; Python's
`store.get` / `store[key] = ...` / `store.pop(key, None)` become function
lookup / update / removal. -/

variable {K V : Type}

/-- Model of `_cache_get(store, key)`: returns the looked-up value (if any)
together with the possibly-mutated store (lazy eviction of expired entries).
Mirrors: TTL≤0 short-circuit, `if not entry` (a 2-tuple is always truthy, so
this only tests presence), `expires_at > time.time()`, `store.pop(key, None)`. -/
def cacheGet [DecidableEq K] (ttl : Int) (store : K → Option (ℚ × V)) (key : K)
    (now : ℚ) : Option V × (K → Option (ℚ × V)) :=
  if ttl ≤ 0 then (none, store)
  else
    match store key with
    | none => (none, store)
    | some (expires_at, value) =>
      if now < expires_at then (some value, store)
      else (none, fun k => if k = key then none else store k)

/-- Model of `_cache_set(store, key, value)`: no-op when TTL≤0, else stores
`(time.time() + CACHE_TTL_SECONDS, value)`. -/
def cacheSet [DecidableEq K] (ttl : Int) (store : K → Option (ℚ × V)) (key : K)
    (value : V) (now : ℚ) : K → Option (ℚ × V) :=
  if ttl ≤ 0 then store
  else fun k => if k = key then some (now + (ttl : ℚ), value) else store k

/-! ## Fault classification (`_is_rate_limited_error` in main.py) -/

/-- An HTTP response object attached to an exception (`err.response`); its
`status_code` attribute may itself be absent. -/
structure RespObj where
  status_code : Option Int
deriving DecidableEq, Repr

/-- A fault raised by an upstream attempt, with the observable features
`_is_rate_limited_error` inspects: `str(err)`, `isinstance(err, JSONDecodeError)`,
`getattr(err, "response", None)` and `isinstance(err, HTTPError)`. -/
structure Fault where
  msg : String
  isJSONDecode : Bool
  response : Option RespObj
  isHTTPError : Bool
deriving DecidableEq, Repr

/-- Contiguous-sublist test on character lists (used for Python's
`pat in msg` substring containment). -/
def charsContain (pat : List Char) : List Char → Bool
  | [] => pat.isEmpty
  | c :: t => pat.isPrefixOf (c :: t) || charsContain pat t

/-- Substring containment on strings, via the character lists. -/
def containsSub (s pat : String) : Bool :=
  charsContain pat.toList s.toList

/-- Python `str.lower()` (per-character; ASCII suffices for the markers and
tokens this program compares). -/
def strLower (s : String) : String :=
  String.mk (s.toList.map Char.toLower)

/-- Python `str.upper()` (per-character). -/
def strUpper (s : String) : String :=
  String.mk (s.toList.map Char.toUpper)

/-- Model of `_is_rate_limited_error(err)`, clause for clause:
lower-cased message containing "429" or "too many requests"; JSON decode
faults; an attached response with `status_code == 429`; and the final
`HTTPError` branch returning `err.response.status_code == 429`. -/
def isRateLimitedError (e : Fault) : Bool :=
  let msg := strLower e.msg
  if containsSub msg "429" || containsSub msg "too many requests" then true
  else if e.isJSONDecode then true
  else
    let status := e.response.bind RespObj.status_code
    if status = some 429 then true
    else if e.isHTTPError && e.response.isSome then decide (status = some 429)
    else false

/-- The specification's classification rule, stated from its words: a fault is
`RateLimited` iff its textual description contains a 429 marker or
"too many requests" (case-insensitively, i.e. after lower-casing), or it is a
malformed-response/decode fault, or an attached HTTP response carries
status 429. -/
def specRateLimited (e : Fault) : Prop :=
  containsSub (strLower e.msg) "429" = true ∨
  containsSub (strLower e.msg) "too many requests" = true ∨
  e.isJSONDecode = true ∨
  e.response.bind RespObj.status_code = some 429

instance (e : Fault) : Decidable (specRateLimited e) := by
  unfold specRateLimited; infer_instance

/-! ## Volume sanitization (`_to_float` / `_sanitize_volume` in main.py) -/

/-- A Python float value, keeping IEEE special values symbolic. -/
inductive PyFloat where
  | finite (q : ℚ)
  | nan
  | posInf
  | negInf
deriving DecidableEq, Repr

/-- A raw volume cell as read from the dataframe row: absent (`None`),
a float-convertible value, or a value on which `float(...)` raises
`TypeError`/`ValueError`. -/
inductive VolumeInput where
  | absent
  | numF (x : PyFloat)
  | nonConvertible
deriving DecidableEq, Repr

/-- Model of `_to_float(value)`: `float(value)` or `None` on
`TypeError`/`ValueError`.  `float` of a float (NaN and infinities included)
is the identity; `float(None)` raises `TypeError`. -/
def toFloatOpt : VolumeInput → Option PyFloat
  | .absent => none
  | .numF x => some x
  | .nonConvertible => none

/-- `np.isnan` on a Python float: true exactly for NaN (false for ±inf). -/
def pyIsNan : PyFloat → Bool
  | .nan => true
  | _ => false

/-- Model of `_sanitize_volume(value)`: `None` ↦ `0.0`; NaN ↦ `0.0`
(`np.isnan` check; its `TypeError` branch is unreachable after a successful
`float(...)` conversion); everything else returned unchanged. -/
def sanitizeVolume (value : VolumeInput) : PyFloat :=
  match toFloatOpt value with
  | none => .finite 0
  | some volume => if pyIsNan volume then .finite 0 else volume

/-- Non-negativity of a Python float (NaN is not non-negative; +inf is). -/
def pyNonNeg : PyFloat → Prop
  | .finite q => 0 ≤ q
  | .nan => False
  | .posInf => True
  | .negInf => False

instance (x : PyFloat) : Decidable (pyNonNeg x) := by
  cases x <;> simp [pyNonNeg] <;> infer_instance

/-! ## Fetch orchestrator (`_download_history` / `get_history` in main.py)

An OHLCV row; the orchestrator only forwards rows, so their fields are
opaque here. Each upstream attempt (`yf.download` / `ticker.history`) either
returns a dataframe — modelled by its row list, with `[]` standing for both
`None` and an empty dataframe (the code treats them alike via
`df is not None and not df.empty`) — or raises a fault. -/

/-- Outcome of one upstream attempt. -/
inductive AttemptOutcome where
  | ok (rows : List ℚ)
  | fault (e : Fault)
deriving DecidableEq, Repr

/-- The mutable loop state of `_download_history`: `last_error` and the
sticky `rate_limited` flag. -/
structure FetchState where
  lastError : Option Fault
  rateLimited : Bool
deriving DecidableEq, Repr

/-- One retry loop of `_download_history` (both paths share this shape):
return the first non-empty result, otherwise thread `last_error` and
`rate_limited` through the attempts. -/
def runAttempts : List AttemptOutcome → FetchState → Option (List ℚ) × FetchState
  | [], st => (none, st)
  | .ok rows :: rest, st =>
    if rows.isEmpty then runAttempts rest st else (some rows, st)
  | .fault e :: rest, st =>
    runAttempts rest ⟨some e, st.rateLimited || isRateLimitedError e⟩

/-- Result of `_download_history`: a returned dataframe (possibly the final
`return pd.DataFrame()`, i.e. `[]`), a raised `UpstreamRateLimitError`
carrying a message, or the re-raised last fault. -/
inductive DownloadResult where
  | frame (rows : List ℚ)
  | raiseRateLimited (msg : String)
  | raiseLast (e : Fault)
deriving DecidableEq, Repr

/-- Model of `_download_history(ticker, period, interval)` given the outcome
of each attempt on the bulk path (`p1`, `yf.download`) and on the per-symbol
path (`p2`, `ticker.history`). Backoff sleeps are timing-only and elided. -/
def downloadHistory (p1 p2 : List AttemptOutcome) : DownloadResult :=
  match runAttempts p1 ⟨none, false⟩ with
  | (some rows, _) => .frame rows
  | (none, st1) =>
    match runAttempts p2 st1 with
    | (some rows, _) => .frame rows
    | (none, st2) =>
      if st2.rateLimited then
        .raiseRateLimited (match st2.lastError with
          | some e => e.msg
          | none => "Rate limited by upstream provider")
      else
        match st2.lastError with
        | some e => .raiseLast e
        | none => .frame []

/-- The error classification `get_history` surfaces to its caller:
`RateLimited` (HTTP 429), `UpstreamFailure` carrying the propagated fault
(HTTP 503), `NotFound` (HTTP 404 on an empty frame). -/
inductive FetchError where
  | RateLimited
  | UpstreamFailure (e : Fault)
  | NotFound
deriving DecidableEq, Repr

/-- The error-handling layer of `get_history` around `_download_history`
(lines 321–328): `UpstreamRateLimitError` ↦ 429, any other exception ↦ 503,
an empty frame ↦ 404; a non-empty frame is a success (`none`). -/
def getHistoryError (p1 p2 : List AttemptOutcome) : Option FetchError :=
  match downloadHistory p1 p2 with
  | .raiseRateLimited _ => some .RateLimited
  | .raiseLast e => some (.UpstreamFailure e)
  | .frame rows => if rows.isEmpty then some .NotFound else none

/-- Whether an attempt yielded a non-empty series. -/
def isNonEmptySuccess : AttemptOutcome → Bool
  | .ok rows => !rows.isEmpty
  | .fault _ => false

/-- The fault raised by an attempt, if any. -/
def attemptFault : AttemptOutcome → Option Fault
  | .ok _ => none
  | .fault e => some e

/-- The faults of a run, in attempt order. -/
def faultsOf (attempts : List AttemptOutcome) : List Fault :=
  attempts.filterMap attemptFault

/-! ## Indicator engine (`indicators.py`)

Close series are `List ℚ`, indexed by position (the dataframe index is
strictly increasing with no duplicates, so positions are order-isomorphic to
timestamps).  A rolling pandas series is a function `Nat → Option ℚ` (`none`
= NaN), and `dropna().to_dict()` keeps exactly the defined positions.
`Series.std` takes an exact square root nowhere representable in `ℚ`, so the
square-root map is an explicit parameter `sqrtFn`; every claim proved about
Bollinger bands holds for all choices of `sqrtFn`. -/

/-- Trailing window of width `w` ending at position `i` (inclusive). -/
def windowEnding (xs : List ℚ) (w i : Nat) : List ℚ :=
  (xs.take (i + 1)).drop (i + 1 - w)

/-- `series.rolling(window=w, min_periods=w).mean()` at position `i`
(the sources either pass `min_periods=window` or rely on its default,
which equals the window size). -/
def rollingMeanAt (xs : List ℚ) (w i : Nat) : Option ℚ :=
  if w ≤ i + 1 ∧ i < xs.length then some ((windowEnding xs w i).sum / (w : ℚ))
  else none

/-- `_sma(series, window)` at position `i`. -/
def smaAt (xs : List ℚ) (w i : Nat) : Option ℚ :=
  rollingMeanAt xs w i

/-- `dropna().to_dict()` over the first `n` positions of a rolling series. -/
def definedPoints (f : Nat → Option ℚ) (n : Nat) : List (Nat × ℚ) :=
  (List.range n).filterMap fun i => (f i).map fun v => (i, v)

/-- `_sma(close, w).dropna().to_dict()`. -/
def smaPoints (xs : List ℚ) (w : Nat) : List (Nat × ℚ) :=
  definedPoints (smaAt xs w) xs.length

/-- The recursive smoothing `y_i = (1-α)·y_{i-1} + α·x_i` of
`ewm(span, adjust=False).mean()`, after the seed. -/
def emaGo (a prev : ℚ) : List ℚ → List ℚ
  | [] => []
  | x :: xs => ((1 - a) * prev + a * x) :: emaGo a ((1 - a) * prev + a * x) xs

/-- `_ema(series, span)`: exponentially weighted mean with
`α = 2/(span+1)`, seeded by the first observation; defined at every
position (`dropna` removes nothing). -/
def emaList (span : Nat) : List ℚ → List ℚ
  | [] => []
  | x :: xs => x :: emaGo (2 / ((span : ℚ) + 1)) x xs

/-- `_ema(close, span).dropna().to_dict()` (no point is ever NaN). -/
def emaPoints (xs : List ℚ) (span : Nat) : List (Nat × ℚ) :=
  (emaList span xs).enum

/-- `series.diff()`: NaN at position 0, pairwise differences after. -/
def deltas : List ℚ → List (Option ℚ)
  | [] => []
  | x :: xs => none :: List.zipWith (fun a b => some (a - b)) xs (x :: xs)

/-- `delta.where(delta > 0, 0.0)`: keeps positive deltas, replaces every
other position — the leading NaN included, since `NaN > 0` is false — by 0. -/
def gainMask : Option ℚ → ℚ
  | some d => if 0 < d then d else 0
  | none => 0

/-- `-delta.where(delta < 0, 0.0)`: negated negative deltas, 0 elsewhere
(again including the leading NaN position). -/
def lossMask : Option ℚ → ℚ
  | some d => if d < 0 then -d else 0
  | none => 0

/-- The gain source series of `_rsi`. -/
def gainList (xs : List ℚ) : List ℚ :=
  (deltas xs).map gainMask

/-- The loss source series of `_rsi`. -/
def lossList (xs : List ℚ) : List ℚ :=
  (deltas xs).map lossMask

/-- The trailing rolling mean of gains over the RSI window. -/
def gainMeanAt (xs : List ℚ) (i : Nat) : Option ℚ :=
  rollingMeanAt (gainList xs) 14 i

/-- The trailing rolling mean of losses over the RSI window. -/
def lossMeanAt (xs : List ℚ) (i : Nat) : Option ℚ :=
  rollingMeanAt (lossList xs) 14 i

/-- `_rsi(series, 14)` at position `i`:
`rs = gain / loss.replace(\x7b0: nan\x7d)`, `rsi = 100 - 100/(1+rs)`, with NaN
(`none`) propagated — in particular `none` wherever the loss mean is 0. -/
def rsiAt (xs : List ℚ) (i : Nat) : Option ℚ :=
  match gainMeanAt xs i, lossMeanAt xs i with
  | some g, some l => if l = 0 then none else some (100 - 100 / (1 + g / l))
  | _, _ => none

/-- `_rsi(close, 14).dropna().to_dict()`. -/
def rsiPoints (xs : List ℚ) : List (Nat × ℚ) :=
  definedPoints (rsiAt xs) xs.length

/-- `series.rolling(window=w, min_periods=w).var()` (sample variance,
`N−1` denominator, pandas default `ddof=1`) at position `i`. -/
def sampleVarAt (xs : List ℚ) (w i : Nat) : Option ℚ :=
  if w ≤ i + 1 ∧ i < xs.length then
    some (((windowEnding xs w i).map
      (fun x => (x - (windowEnding xs w i).sum / (w : ℚ)) ^ 2)).sum / ((w : ℚ) - 1))
  else none

/-- `series.rolling(window=w, min_periods=w).std()` at position `i`:
the square root (abstracted as `sqrtFn`) of the sample variance. -/
def stdAt (sqrtFn : ℚ → ℚ) (xs : List ℚ) (w i : Nat) : Option ℚ :=
  (sampleVarAt xs w i).map sqrtFn

/-- `_bollinger` upper band `ma + num_std · std` at position `i`. -/
def bollUpperAt (sqrtFn : ℚ → ℚ) (xs : List ℚ) (w : Nat) (numStd : ℚ)
    (i : Nat) : Option ℚ :=
  match smaAt xs w i, stdAt sqrtFn xs w i with
  | some m, some s => some (m + numStd * s)
  | _, _ => none

/-- `_bollinger` lower band `ma − num_std · std` at position `i`. -/
def bollLowerAt (sqrtFn : ℚ → ℚ) (xs : List ℚ) (w : Nat) (numStd : ℚ)
    (i : Nat) : Option ℚ :=
  match smaAt xs w i, stdAt sqrtFn xs w i with
  | some m, some s => some (m - numStd * s)
  | _, _ => none

/-- `macd_line = EMA(fast) − EMA(slow)`. -/
def macdLineList (xs : List ℚ) : List ℚ :=
  List.zipWith (fun a b => a - b) (emaList 12 xs) (emaList 26 xs)

/-- `signal_line = EMA(macd_line, span=9)`. -/
def macdSignalList (xs : List ℚ) : List ℚ :=
  emaList 9 (macdLineList xs)

/-- `hist = macd_line − signal_line`. -/
def macdHistList (xs : List ℚ) : List ℚ :=
  List.zipWith (fun a b => a - b) (macdLineList xs) (macdSignalList xs)

/-- A value of the indicator output dict: a single sparse series, or a
component-labelled family of them (MACD, Bollinger). -/
inductive IndEntry where
  | single (pts : List (Nat × ℚ))
  | multi (parts : List (String × List (Nat × ℚ)))
deriving DecidableEq, Repr

/-- Model of `compute_indicators(df, wants)`: the output dict in insertion
order, one block per recognised name present in `wants` (unrecognised
tokens are silently ignored; `df["Close"].astype(float)` is the identity on
an already-numeric series; `Volume` is never read). -/
def computeIndicators (sqrtFn : ℚ → ℚ) (close : List ℚ)
    (wants : List String) : List (String × IndEntry) :=
  (if wants.contains "sma" then
    [("sma20", .single (smaPoints close 20)), ("sma50", .single (smaPoints close 50))]
   else []) ++
  (if wants.contains "ema" then
    [("ema12", .single (emaPoints close 12)), ("ema26", .single (emaPoints close 26))]
   else []) ++
  (if wants.contains "rsi" then [("rsi14", .single (rsiPoints close))] else []) ++
  (if wants.contains "macd" then
    [("macd", .multi [("line", (macdLineList close).enum),
                      ("signal", (macdSignalList close).enum),
                      ("hist", (macdHistList close).enum)])]
   else []) ++
  (if wants.contains "boll" then
    [("bollinger", .multi
      [("ma", definedPoints (smaAt close 20) close.length),
       ("upper", definedPoints (bollUpperAt sqrtFn close 20 2) close.length),
       ("lower", definedPoints (bollLowerAt sqrtFn close 20 2) close.length)])]
   else [])

/-- Python `str.split(",")` over the character list: splits at every comma,
keeping empty segments (`"".split(",") == [""]`). -/
def splitOnComma : List Char → List (List Char)
  | [] => [[]]
  | c :: t =>
    if c = ',' then [] :: splitOnComma t
    else
      match splitOnComma t with
      | [] => [[c]]
      | p :: ps => (c :: p) :: ps

/-- Python `str.strip()`: drop whitespace from both ends. -/
def trimChars (l : List Char) : List Char :=
  ((l.dropWhile Char.isWhitespace).reverse.dropWhile Char.isWhitespace).reverse

/-- The token parsing of `get_history`:
`[x.strip().lower() for x in indicators.split(",") if x.strip()]`. -/
def parseWants (s : String) : List String :=
  ((splitOnComma s.toList).filter fun x => trimChars x ≠ []).map
    fun x => String.mk ((trimChars x).map Char.toLower)

/-- The `indicators` post-processing of `get_history` (lines 349–354):
`ind_out = None`; only a *truthy* (non-empty) query string reaches
`compute_indicators`. -/
def historyIndicatorsOut (indicators : Option String) (sqrtFn : ℚ → ℚ)
    (close : List ℚ) : Option (List (String × IndEntry)) :=
  match indicators with
  | none => none
  | some s => if s = "" then none else some (computeIndicators sqrtFn close (parseWants s))

/-! ## Polymorphic field accessor (`_safe_lookup` in main.py)

A source object is modelled by the behaviours `_safe_lookup` can observe:
whether it is `None`, a callable `get` attribute, `isinstance(source, dict)`,
subscription `source[key]`, and `getattr(source, key)` (which, for a string
key, can only fail with `AttributeError`, hence `Option`).  Exceptions are
`Except` values; an `Except.error` escaping `safe_lookup` models an uncaught
Python exception propagating out of `_safe_lookup`. -/

/-- Python exception kinds distinguished by `_safe_lookup`'s handlers. -/
inductive Exc where
  | keyError
  | typeError
  | attrError
  | indexError
  | otherExc
deriving DecidableEq, Repr

/-- The observable behaviour of a lookup source object. -/
structure PyObject (V : Type) where
  isNone : Bool
  getMethod : Option (String → Except Exc (Option V))
  isDict : Bool
  dictGet : String → Option V
  indexOp : String → Except Exc V
  attrOp : String → Option V

/-- Model of `_safe_lookup(source, key)`, block for block: the `None`
short-circuit; the first `try` (callable `get` — whose `KeyError` returns
`None` and whose other exceptions fall to the outer `except Exception: pass`
— then the `isinstance(dict)` branch); the subscription `try` catching only
`KeyError`/`TypeError`/`AttributeError` (anything else propagates); and the
final `getattr` with `AttributeError` ↦ `None`. -/
def safe_lookup {V : Type} (src : PyObject V) (key : String) :
    Except Exc (Option V) :=
  if src.isNone then .ok none
  else
    let block1 : Option (Except Exc (Option V)) :=
      match src.getMethod with
      | some g =>
        match g key with
        | .ok v => some (.ok v)
        | .error .keyError => some (.ok none)
        | .error _ => none
      | none => if src.isDict then some (.ok (src.dictGet key)) else none
    match block1 with
    | some r => r
    | none =>
      match src.indexOp key with
      | .ok v => .ok (some v)
      | .error .keyError => attrStep src key
      | .error .typeError => attrStep src key
      | .error .attrError => attrStep src key
      | .error e => .error e
where
  /-- The final `getattr(source, key)` step with its `AttributeError`
  handler. -/
  attrStep (src : PyObject V) (key : String) : Except Exc (Option V) :=
    match src.attrOp key with
    | some v => .ok (some v)
    | none => .ok none

/-- The shapes `_safe_lookup` is fed in this program, plus `None`:
a plain `dict` (the `info` bag), a mapping-style object exposing `get` /
subscription / attributes (the `fast_info` snapshot; its `get` follows
`Mapping.get` semantics, returning `None` on a missing key), and a plain
attribute bag with neither `get` nor subscription. -/
inductive RespShape (V : Type) where
  | pyNone
  | dictShape (entries : List (String × V))
  | mappingShape (items attrs : List (String × V))
  | attrShape (attrs : List (String × V))

/-- The `PyObject` behaviour of each response shape, following Python
semantics: `dict.get` never raises on a string key and returns `None` when
absent; `d[key]` raises `KeyError` when absent; `getattr` on a plain object
raises `AttributeError` when absent; subscribing a non-subscriptable object
raises `TypeError`. -/
def RespShape.toObj {V : Type} : RespShape V → PyObject V
  | .pyNone =>
    { isNone := true, getMethod := none, isDict := false,
      dictGet := fun _ => none, indexOp := fun _ => .error .typeError,
      attrOp := fun _ => none }
  | .dictShape entries =>
    { isNone := false,
      getMethod := some fun k => .ok (entries.lookup k),
      isDict := true, dictGet := fun k => entries.lookup k,
      indexOp := fun k =>
        match entries.lookup k with
        | some v => .ok v
        | none => .error .keyError,
      attrOp := fun _ => none }
  | .mappingShape items attrs =>
    { isNone := false,
      getMethod := some fun k => .ok (items.lookup k),
      isDict := false, dictGet := fun _ => none,
      indexOp := fun k =>
        match items.lookup k with
        | some v => .ok v
        | none => .error .keyError,
      attrOp := fun k => attrs.lookup k }
  | .attrShape attrs =>
    { isNone := false, getMethod := none, isDict := false,
      dictGet := fun _ => none, indexOp := fun _ => .error .typeError,
      attrOp := fun k => attrs.lookup k }

/-- The value `_safe_lookup` is expected to produce on each shape: the first
lookup style the shape supports answers (a mapping-style `get` answers
`None` for a missing key, so later styles are not consulted); an attribute
bag answers through `getattr`; all-fail yields absent. -/
def RespShape.expected {V : Type} : RespShape V → String → Option V
  | .pyNone, _ => none
  | .dictShape entries, k => entries.lookup k
  | .mappingShape items _, k => items.lookup k
  | .attrShape attrs, k => attrs.lookup k

/-! ## Quote endpoint (`get_quote` in main.py)

Upstream values are `PyVal`s (numbers, strings, `None`); `float(...)` on a
string is modelled as failing (the string fields these endpoints read are
non-numeric).  `t.fast_info` / `t.info` / `t.history` each either produce a
value or raise, modelled with `Option` (`none` = raised; a falsy result and
the `or \x7b\x7d` fallback coincide with the empty list). -/

/-- A loosely-typed Python value in a quote bag. -/
inductive PyVal where
  | num (q : ℚ)
  | str (s : String)
  | noneVal
deriving DecidableEq, Repr

/-- `float(v)` on a bag value: numbers convert, `None` is handled before the
conversion, and the (non-numeric) string fields raise `ValueError`. -/
def pyValToFloat : PyVal → Option ℚ
  | .num q => some q
  | .str _ => none
  | .noneVal => none

/-- Collapse a `_safe_lookup` result to its value; the faults it can raise
do not arise on the dict shapes `get_quote` uses. -/
def exceptJoin {V : Type} : Except Exc (Option V) → Option V
  | .ok v => v
  | .error _ => none

/-- `_safe_lookup(d, key)` on one of the quote bags (dicts). -/
def safeValD (d : List (String × PyVal)) (key : String) : Option PyVal :=
  exceptJoin (safe_lookup (RespShape.toObj (.dictShape d)) key)

/-- Model of `_safe_float(d, key)`: `_safe_lookup`, then
`float(v) if v is not None else None` with exceptions ↦ `None`. -/
def safeFloatD (d : List (String × PyVal)) (key : String) : Option ℚ :=
  match safeValD d key with
  | some v => pyValToFloat v
  | none => none

/-- Python truthiness of an optional bag value (`None`, `0.0` and `""` are
falsy). -/
def truthyV : Option PyVal → Bool
  | some (.num q) => q != 0
  | some (.str s) => s != ""
  | some .noneVal => false
  | none => false

/-- Python `a or b` on optional floats (`None` and `0.0` are falsy). -/
def pyOrF (a b : Option ℚ) : Option ℚ :=
  match a with
  | some x => if x = 0 then b else some x
  | none => b

/-- Python `a or b` on optional bag values. -/
def pyOrV (a b : Option PyVal) : Option PyVal :=
  if truthyV a then a else b

/-- Pydantic's view of the computed `currency` value as an optional string. -/
def currencyStr : Option PyVal → Option String
  | some (.str s) => some s
  | _ => none

/-- One row of the `t.history(period="5d", interval="1d")` fallback frame. -/
structure HistRow where
  openPrice : ℚ
  high : ℚ
  low : ℚ
  close : ℚ
deriving DecidableEq, Repr

/-- The upstream behaviour one `get_quote` call observes: the `fast_info`
bag, the `info` bag, and the OHLC fallback frame (`none` = the call raised). -/
structure QuoteUpstream where
  fastInfo : Option (List (String × PyVal))
  info : Option (List (String × PyVal))
  hist : Option (List HistRow)

/-- The `QuoteResponse` pydantic model (field `open` renamed `openPrice`;
`open` is a Lean keyword). -/
structure QuoteResp where
  ticker : String
  price : Option ℚ
  currency : Option String
  previousClose : Option ℚ
  openPrice : Option ℚ
  dayHigh : Option ℚ
  dayLow : Option ℚ
  marketCap : Option ℚ
  trailingPE : Option ℚ
  forwardPE : Option ℚ
  epsTrailing12M : Option ℚ
  dividendYield : Option ℚ
  beta : Option ℚ
  fiftyTwoWeekHigh : Option ℚ
  fiftyTwoWeekLow : Option ℚ
deriving DecidableEq, Repr

/-- The five price-like values threaded through the history fill-in block. -/
structure PriceVals where
  price : Option ℚ
  prev : Option ℚ
  openP : Option ℚ
  hi : Option ℚ
  lo : Option ℚ
deriving DecidableEq, Repr

/-- The `if any(v is None ...)` fill-in block of `get_quote` (lines 273–286):
fill still-missing values from the last session's OHLC, `hist["Close"].iloc[-2]`
for the previous close when two rows exist; an exception or an empty frame
leaves everything unchanged. -/
def fillFromHist (v : PriceVals) (hist : Option (List HistRow)) : PriceVals :=
  if v.price.isNone || v.prev.isNone || v.openP.isNone || v.hi.isNone
      || v.lo.isNone then
    match hist with
    | some rows =>
      match rows.getLast? with
      | some last =>
        { price := pyOrF v.price (some last.close),
          prev := if 2 ≤ rows.length then
              pyOrF v.prev ((rows.get? (rows.length - 2)).map HistRow.close)
            else v.prev,
          openP := pyOrF v.openP (some last.openPrice),
          hi := pyOrF v.hi (some last.high),
          lo := pyOrF v.lo (some last.low) }
      | none => v
    | none => v
  else v

/-- The response `get_quote` constructs on a cache miss (lines 250–304):
bag lookups with `or`-fallbacks, the history fill-in block, and the
`QuoteResponse` constructor call. -/
def quoteRespOf (up : QuoteUpstream) (symbol : String) : QuoteResp :=
  let fast := up.fastInfo.getD []
  let info := up.info.getD []
  let v0 : PriceVals :=
    { price := pyOrF (safeFloatD fast "last_price")
        (safeFloatD info "regularMarketPrice"),
      prev := pyOrF (safeFloatD fast "previous_close")
        (safeFloatD info "regularMarketPreviousClose"),
      openP := pyOrF (safeFloatD fast "open")
        (safeFloatD info "regularMarketOpen"),
      hi := pyOrF (safeFloatD fast "day_high")
        (safeFloatD info "regularMarketDayHigh"),
      lo := pyOrF (safeFloatD fast "day_low")
        (safeFloatD info "regularMarketDayLow") }
  let v := fillFromHist v0 up.hist
  { ticker := symbol,
    price := v.price,
    currency := currencyStr
      (pyOrV (safeValD fast "currency") (safeValD info "currency")),
    previousClose := v.prev,
    openPrice := v.openP,
    dayHigh := v.hi,
    dayLow := v.lo,
    marketCap := safeFloatD info "marketCap",
    trailingPE := safeFloatD info "trailingPE",
    forwardPE := safeFloatD info "forwardPE",
    epsTrailing12M := safeFloatD info "trailingEps",
    dividendYield := safeFloatD info "dividendYield",
    beta := safeFloatD info "beta",
    fiftyTwoWeekHigh := safeFloatD info "fiftyTwoWeekHigh",
    fiftyTwoWeekLow := safeFloatD info "fiftyTwoWeekLow" }

/-- Model of `get_quote(ticker)`: cache lookup (with its lazy eviction); on
a hit the cached response is returned; on a miss the constructed response is
stored with `_cache_set` and returned.  The result's third component records
whether the upstream was contacted during this call. -/
def getQuote (ttl : Int) (cache : String → Option (ℚ × QuoteResp))
    (ticker : String) (now : ℚ) (up : QuoteUpstream) :
    QuoteResp × (String → Option (ℚ × QuoteResp)) × Bool :=
  let symbol := strUpper ticker
  let c := cacheGet ttl cache symbol now
  match c.1 with
  | some cached => (cached, c.2, false)
  | none =>
    (quoteRespOf up symbol,
     cacheSet ttl c.2 symbol (quoteRespOf up symbol) now, true)

/-- The response `get_quote` constructs when every upstream lookup fails:
every optional field `None`. -/
def allNoneQuote (symbol : String) : QuoteResp :=
  { ticker := symbol, price := none, currency := none, previousClose := none,
    openPrice := none, dayHigh := none, dayLow := none, marketCap := none,
    trailingPE := none, forwardPE := none, epsTrailing12M := none,
    dividendYield := none, beta := none, fiftyTwoWeekHigh := none,
    fiftyTwoWeekLow := none }

/-! ## Theorems -/

/-- Claim C3: with TTL ≤ 0 caching is disabled entirely — for every key and
every prior sequence of `set` calls, `get` reports absent (and leaves the
store untouched), and every `set` — hence any sequence of them — is a no-op
on the store. -/
theorem cache_disabled_when_ttl_nonpos {K V : Type} [DecidableEq K]
    (ttl : Int) (h : ttl ≤ 0) (store : K → Option (ℚ × V)) (key : K)
    (now : ℚ) :
    cacheGet ttl store key now = (none, store) ∧
    (∀ v, cacheSet ttl store key v now = store) ∧
    (∀ ops : List (K × V × ℚ),
      ops.foldl (fun st p => cacheSet ttl st p.1 p.2.1 p.2.2) store = store) := by
  refine ⟨by simp [cacheGet, h], fun v => by simp [cacheSet, h], fun ops => ?_⟩
  induction ops generalizing store with
  | nil => rfl
  | cons p rest ih =>
    have hset : cacheSet ttl store p.1 p.2.1 p.2.2 = store := by simp [cacheSet, h]
    simp only [List.foldl_cons, hset]
    exact ih store

/-- Witness for C3 at TTL = 0. -/
theorem cache_disabled_when_ttl_nonpos_witness :
    cacheGet (K := String) (V := ℕ) 0 (fun _ => none) "k" 0 =
      (none, fun _ => none) ∧
    cacheSet (K := String) (V := ℕ) 0 (fun _ => none) "k" 5 0 =
      (fun _ => none) := by
  have h := cache_disabled_when_ttl_nonpos (K := String) (V := ℕ) 0
    (by decide) (fun _ => none) "k" 0
  exact ⟨h.1, h.2.1 5⟩

/-- Claim C4: with TTL > 0, a `set(key, value)` at time `t0` makes `get(key)`
return the stored value at any `now` strictly before `t0 + TTL`; once
`now ≥ t0 + TTL` the `get` reports absent and eagerly removes the entry
(other keys untouched). -/
theorem cache_ttl_pos_set_then_get {K V : Type} [DecidableEq K]
    (ttl : Int) (h : 0 < ttl) (store : K → Option (ℚ × V)) (key : K)
    (v : V) (t0 now : ℚ) :
    (now < t0 + (ttl : ℚ) →
      cacheGet ttl (cacheSet ttl store key v t0) key now =
        (some v, cacheSet ttl store key v t0)) ∧
    (t0 + (ttl : ℚ) ≤ now →
      (cacheGet ttl (cacheSet ttl store key v t0) key now).1 = none ∧
      (cacheGet ttl (cacheSet ttl store key v t0) key now).2 key = none ∧
      (∀ k, k ≠ key →
        (cacheGet ttl (cacheSet ttl store key v t0) key now).2 k =
          cacheSet ttl store key v t0 k)) := by
  have hns : ¬ ttl ≤ 0 := not_le.mpr h
  constructor
  · intro hfresh
    simp [cacheGet, cacheSet, hns, hfresh]
  · intro hexp
    have hlt : ¬ now < t0 + (ttl : ℚ) := not_lt.mpr hexp
    refine ⟨by simp [cacheGet, cacheSet, hns, hlt], by simp [cacheGet, cacheSet, hns, hlt],
      fun k hk => by simp [cacheGet, cacheSet, hns, hlt, hk]⟩

/-- Witness for C4 at TTL = 300, set at time 0, reads at times 10 and 300. -/
theorem cache_ttl_pos_set_then_get_witness :
    (cacheGet (K := String) (V := ℕ) 300
        (cacheSet 300 (fun _ => none) "k" 7 0) "k" 10 =
      (some 7, cacheSet 300 (fun _ => none) "k" 7 0)) ∧
    ((cacheGet (K := String) (V := ℕ) 300
        (cacheSet 300 (fun _ => none) "k" 7 0) "k" 300).1 = none ∧
     (cacheGet (K := String) (V := ℕ) 300
        (cacheSet 300 (fun _ => none) "k" 7 0) "k" 300).2 "k" = none) := by
  have h := cache_ttl_pos_set_then_get (K := String) (V := ℕ) 300
    (by decide) (fun _ => none) "k" 7 0 10
  have h2 := cache_ttl_pos_set_then_get (K := String) (V := ℕ) 300
    (by decide) (fun _ => none) "k" 7 0 300
  exact ⟨h.1 (by norm_num), (h2.2 (by norm_num)).1, (h2.2 (by norm_num)).2.1⟩

/-- Claim C5: a fault is classified rate-limited exactly when its (lower-
cased) textual description contains "429" or "too many requests", or it is a
JSON-decode fault, or an attached HTTP response carries status 429. -/
theorem rate_limited_classification (e : Fault) :
    isRateLimitedError e = true ↔ specRateLimited e := by
  unfold isRateLimitedError specRateLimited
  split_ifs with h1 h2 <;>
    simp_all [Bool.or_eq_true, decide_eq_true_eq] <;> tauto

/-- Counterexample for C6: the code does not normalize non-finite volumes —
`-inf` is float-convertible and not NaN, so `_sanitize_volume` returns it
unchanged: neither `0.0` nor non-negative, contradicting the claimed
invariant. -/
theorem sanitize_volume_claim_false :
    sanitizeVolume (.numF .negInf) = .negInf ∧
    ¬ pyNonNeg (sanitizeVolume (.numF .negInf)) ∧
    sanitizeVolume (.numF .negInf) ≠ .finite 0 := by
  decide

/-- Claim C6 (amended): the sanitized volume is never NaN — absent,
non-convertible and NaN inputs are normalized to `0.0` — but every other
convertible value (infinities and negative values included) is returned
unchanged. -/
theorem sanitize_volume_amended (v : VolumeInput) :
    sanitizeVolume v ≠ .nan ∧
    (v = .absent ∨ v = .nonConvertible ∨ v = .numF .nan →
      sanitizeVolume v = .finite 0) ∧
    (∀ x : PyFloat, v = .numF x → x ≠ .nan → sanitizeVolume v = x) := by
  rcases v with _ | x | _
  · exact ⟨by decide, fun _ => rfl, fun x hx => by cases hx⟩
  · refine ⟨?_, ?_, ?_⟩
    · cases x <;> simp [sanitizeVolume, toFloatOpt, pyIsNan]
    · intro h
      rcases h with h | h | h
      · cases h
      · cases h
      · cases h; rfl
    · intro y hy hne
      cases hy
      cases x <;> simp_all [sanitizeVolume, toFloatOpt, pyIsNan]
  · exact ⟨by decide, fun _ => rfl, fun x hx => by cases hx⟩

/-- Witness for C6 (amended): a `None` volume becomes `0.0`; an ordinary
finite volume passes through. -/
theorem sanitize_volume_amended_witness :
    sanitizeVolume .absent = .finite 0 ∧
    sanitizeVolume (.numF (.finite 7)) = .finite 7 :=
  ⟨(sanitize_volume_amended .absent).2.1 (Or.inl rfl),
   (sanitize_volume_amended (.numF (.finite 7))).2.2 (.finite 7) rfl
     (by decide)⟩

/-- Claim C9: on `None` and on either response shape, `_safe_lookup` never
raises — it works through mapping-style lookup, then subscription, then
attribute lookup, and produces exactly the first answer the shape supports,
absent (`None`) when all fail. -/
theorem safe_lookup_total {V : Type} (s : RespShape V) (key : String) :
    safe_lookup s.toObj key = .ok (s.expected key) := by
  cases s with
  | pyNone => rfl
  | dictShape entries => rfl
  | mappingShape items attrs => rfl
  | attrShape attrs =>
    cases h : attrs.lookup key <;>
      simp [safe_lookup, RespShape.toObj, RespShape.expected,
        safe_lookup.attrStep, h]

/-- Counterexample for C2: the natural requests for the empty indicator set
(an absent or empty `indicators` query parameter) yield a null `indicators`
field in the response, not an empty mapping — `ind_out = None` survives the
falsy-string guard `if indicators:`. -/
theorem history_indicators_empty_request_is_null :
    historyIndicatorsOut (some "") id [1] = none ∧
    historyIndicatorsOut none id [1] = none := by
  exact ⟨rfl, rfl⟩

/-- Claim C2 (amended): an absent or empty `indicators` parameter yields an
absent (null) indicators field; the empty indicator result structure is
produced only when the parameter string is non-empty but parses to no
tokens (e.g. `","`). -/
theorem history_indicators_empty_set_amended (sqrtFn : ℚ → ℚ)
    (close : List ℚ) :
    historyIndicatorsOut none sqrtFn close = none ∧
    historyIndicatorsOut (some "") sqrtFn close = none ∧
    (∀ s : String, s ≠ "" → parseWants s = [] →
      historyIndicatorsOut (some s) sqrtFn close = some []) := by
  refine ⟨rfl, rfl, fun s hs hp => ?_⟩
  simp [historyIndicatorsOut, hs, hp, computeIndicators]

/-- Witness for C2 (amended): the parameter `","` parses to no tokens and
produces the empty indicator structure. -/
theorem history_indicators_empty_set_amended_witness :
    parseWants "," = [] ∧ historyIndicatorsOut (some ",") id [3] = some [] :=
  ⟨by decide,
   (history_indicators_empty_set_amended id [3]).2.2 "," (by decide) (by decide)⟩

/-- First-defined choice on options (Python-style fallback). -/
def firstSome {α : Type} : Option α → Option α → Option α
  | some a, _ => some a
  | none, b => b

lemma getLastQ_cons {α : Type} (a : α) (l : List α) :
    (a :: l).getLast? = firstSome l.getLast? (some a) := by
  induction l generalizing a with
  | nil => rfl
  | cons b t ih =>
    rw [List.getLast?_cons_cons, ih b]
    cases ht : t.getLast? <;> simp [firstSome, ih b, ht]

/-- On a run where no attempt yields a non-empty series, `runAttempts`
returns no result, records the last fault (falling back to the incoming
one), and accumulates the sticky rate-limited flag. -/
lemma runAttempts_all_fail (l : List AttemptOutcome) (st : FetchState)
    (h : ∀ o ∈ l, isNonEmptySuccess o = false) :
    runAttempts l st =
      (none, ⟨firstSome (faultsOf l).getLast? st.lastError,
              st.rateLimited || (faultsOf l).any isRateLimitedError⟩) := by
  induction l generalizing st with
  | nil => simp [runAttempts, faultsOf, firstSome]
  | cons o rest ih =>
    cases o with
    | ok rows =>
      have hr : rows.isEmpty = true := by
        have := h _ (List.mem_cons_self _ _)
        simpa [isNonEmptySuccess] using this
      have hrest : ∀ o ∈ rest, isNonEmptySuccess o = false :=
        fun o ho => h o (List.mem_cons_of_mem _ ho)
      simp [runAttempts, hr, faultsOf, attemptFault, ih _ hrest]
    | fault e =>
      have hrest : ∀ o ∈ rest, isNonEmptySuccess o = false :=
        fun o ho => h o (List.mem_cons_of_mem _ ho)
      have hstep := ih ⟨some e, st.rateLimited || isRateLimitedError e⟩ hrest
      simp only [runAttempts, hstep, faultsOf, List.filterMap_cons, attemptFault]
      rw [getLastQ_cons]
      cases hfs : (List.filterMap attemptFault rest).getLast? <;>
        simp [firstSome, hfs, Bool.or_assoc]


/-- A first retry loop that found nothing continues into the next loop with
its final state. -/
lemma runAttempts_append_of_none (p1 p2 : List AttemptOutcome)
    (st st' : FetchState) (h : runAttempts p1 st = (none, st')) :
    runAttempts (p1 ++ p2) st = runAttempts p2 st' := by
  induction p1 generalizing st with
  | nil =>
    simp only [runAttempts] at h
    injection h with h1 h2
    subst h2
    simp
  | cons o rest ih =>
    cases o with
    | ok rows =>
      by_cases hr : rows.isEmpty
      · simp only [runAttempts, hr, if_true] at h
        simp only [List.cons_append, runAttempts, hr, if_true]
        exact ih st h
      · simp [runAttempts, hr] at h
    | fault e =>
      simp only [runAttempts] at h
      simp only [List.cons_append, runAttempts]
      exact ih _ h

/-- Claim C1: when all 3 attempts on both paths fail to yield a non-empty
series, the fetch fails — with `RateLimited` as soon as *any* recorded fault
classified rate-limited (even if the most recently recorded fault did not),
else with `UpstreamFailure` propagating the last fault encountered, else
(no faults at all) with `NotFound`. -/
theorem fetch_error_classification (p1 p2 : List AttemptOutcome)
    (_h1 : p1.length = 3) (_h2 : p2.length = 3)
    (hfail : ∀ o ∈ p1 ++ p2, isNonEmptySuccess o = false) :
    getHistoryError p1 p2 =
      if (faultsOf (p1 ++ p2)).any isRateLimitedError then
        some .RateLimited
      else
        match (faultsOf (p1 ++ p2)).getLast? with
        | some e => some (.UpstreamFailure e)
        | none => some .NotFound := by
  have hfail1 : ∀ o ∈ p1, isNonEmptySuccess o = false :=
    fun o ho => hfail o (List.mem_append_left _ ho)
  have hrun1 : runAttempts p1 ⟨none, false⟩ =
      (none, ⟨firstSome (faultsOf p1).getLast? none,
              (faultsOf p1).any isRateLimitedError⟩) := by
    simpa using runAttempts_all_fail p1 ⟨none, false⟩ hfail1
  have happ := runAttempts_append_of_none p1 p2 _ _ hrun1
  have hrunAll : runAttempts (p1 ++ p2) ⟨none, false⟩ =
      (none, ⟨firstSome (faultsOf (p1 ++ p2)).getLast? none,
              (faultsOf (p1 ++ p2)).any isRateLimitedError⟩) := by
    simpa using runAttempts_all_fail (p1 ++ p2) ⟨none, false⟩ hfail
  have hrun2 := happ.symm.trans hrunAll
  unfold getHistoryError downloadHistory
  simp only [hrun1]
  simp only [hrun2]
  cases hany : (faultsOf (p1 ++ p2)).any isRateLimitedError with
  | true => simp [hany]
  | false =>
    cases hlast : (faultsOf (p1 ++ p2)).getLast? <;>
      simp [hany, hlast, firstSome]

/-- Witness for C1: the bulk path raises a 429 fault, then a plain fault
(the most recently recorded fault is *not* rate-limited), then returns an
empty frame; the per-symbol path returns empty frames — the final error is
`RateLimited`. -/
theorem fetch_error_classification_witness :
    getHistoryError
      [.fault ⟨"HTTP Error 429", false, none, false⟩,
       .fault ⟨"connection reset", false, none, false⟩, .ok []]
      [.ok [], .ok [], .ok []] = some .RateLimited := by
  have h := fetch_error_classification
    [.fault ⟨"HTTP Error 429", false, none, false⟩,
     .fault ⟨"connection reset", false, none, false⟩, .ok []]
    [.ok [], .ok [], .ok []] rfl rfl (by decide)
  rw [h]
  decide

lemma gainList_length (xs : List ℚ) : (gainList xs).length = xs.length := by
  cases xs with
  | nil => rfl
  | cons x t =>
    simp [gainList, deltas, List.length_zipWith]

lemma lossList_length (xs : List ℚ) : (lossList xs).length = xs.length := by
  cases xs with
  | nil => rfl
  | cons x t =>
    simp [lossList, deltas, List.length_zipWith]

/-- RSI is undefined (NaN) at positions 0‥12: the rolling means need 14
observations. -/
lemma rsiAt_eq_none_of_lt_13 (xs : List ℚ) (i : Nat) (hi : i < 13) :
    rsiAt xs i = none := by
  have hg : gainMeanAt xs i = none := by
    unfold gainMeanAt rollingMeanAt
    rw [if_neg (by omega : ¬ (14 ≤ i + 1 ∧ i < (gainList xs).length))]
  have hl : lossMeanAt xs i = none := by
    unfold lossMeanAt rollingMeanAt
    rw [if_neg (by omega : ¬ (14 ≤ i + 1 ∧ i < (lossList xs).length))]
  simp [rsiAt, hg, hl]

/-- RSI is undefined (omitted) wherever the rolling loss mean is exactly 0:
`loss.replace(\x7b0: nan\x7d)` turns the divisor into NaN. -/
lemma rsiAt_of_lossMean_zero (xs : List ℚ) (i : Nat)
    (h : lossMeanAt xs i = some 0) : rsiAt xs i = none := by
  have hcond : 14 ≤ i + 1 ∧ i < (lossList xs).length := by
    by_contra hc
    unfold lossMeanAt rollingMeanAt at h
    rw [if_neg hc] at h
    cases h
  have hlen : (gainList xs).length = (lossList xs).length := by
    rw [gainList_length, lossList_length]
  have hcg : 14 ≤ i + 1 ∧ i < (gainList xs).length := by
    obtain ⟨ha, hb⟩ := hcond
    omega
  have hg : gainMeanAt xs i =
      some ((windowEnding (gainList xs) 14 i).sum / (((14 : ℕ)) : ℚ)) := by
    unfold gainMeanAt rollingMeanAt
    rw [if_pos hcg]
  simp [rsiAt, hg, h]

/-- Over a strictly increasing series every delta is positive. -/
lemma zipWith_sub_pos (prev : ℚ) (xs : List ℚ)
    (h : List.Chain (· < ·) prev xs) :
    ∀ d ∈ List.zipWith (fun a b => some (a - b)) xs (prev :: xs),
      ∀ q : ℚ, d = some q → 0 < q := by
  induction xs generalizing prev with
  | nil => intro d hd; simp at hd
  | cons y t ih =>
    intro d hd q hq
    rw [List.chain_cons] at h
    rw [List.zipWith_cons_cons, List.mem_cons] at hd
    rcases hd with rfl | hd
    · injection hq with hq
      subst hq
      exact sub_pos.mpr h.1
    · exact ih y h.2 d hd q hq

/-- Over a strictly increasing series the loss source series is constantly
zero (the masked leading NaN included). -/
lemma lossList_zero_of_chain (xs : List ℚ) (h : List.Chain' (· < ·) xs) :
    ∀ y ∈ lossList xs, y = 0 := by
  cases xs with
  | nil => intro y hy; simp [lossList, deltas] at hy
  | cons x t =>
    intro y hy
    simp only [lossList, deltas, List.map_cons, List.mem_cons] at hy
    rcases hy with rfl | hy
    · rfl
    · obtain ⟨d, hd, rfl⟩ := List.mem_map.1 hy
      cases d with
      | none => rfl
      | some q =>
        have hpos : 0 < q := zipWith_sub_pos x t h (some q) hd q rfl
        simp [lossMask, not_lt.mpr (le_of_lt hpos)]

/-- On a strictly increasing close series RSI has no defined point. -/
lemma rsiPoints_nil_of_chain (xs : List ℚ) (h : List.Chain' (· < ·) xs) :
    rsiPoints xs = [] := by
  unfold rsiPoints definedPoints
  rw [List.filterMap_eq_nil_iff]
  intro i _
  suffices hz : rsiAt xs i = none by simp [hz]
  cases hL : lossMeanAt xs i with
  | none => cases hG : gainMeanAt xs i <;> simp [rsiAt, hG, hL]
  | some l =>
    have hzero : l = 0 := by
      unfold lossMeanAt rollingMeanAt at hL
      split_ifs at hL with hc
      · injection hL with hv
        have hsub : ∀ y ∈ windowEnding (lossList xs) 14 i, y = 0 := by
          intro y hy
          apply lossList_zero_of_chain xs h
          have hsl : List.Sublist (windowEnding (lossList xs) 14 i)
              (lossList xs) :=
            (List.drop_sublist _ _).trans (List.take_sublist _ _)
          exact hsl.subset hy
        rw [← hv, List.sum_eq_zero hsub, zero_div]
    rw [hzero] at hL
    exact rsiAt_of_lossMean_zero xs i hL

/-- Counterexample for C7: on the 14-point strictly decreasing series below,
RSI already has a defined point at position 13 — the 14th point, which has
only 13 real deltas (the leading NaN delta is coerced to 0 by the
`where`-mask, diluting the first window instead of invalidating it).  So the
code omits only the first 13 points, not the first 14 as claimed. -/
theorem rsi_first_window_claim_false :
    rsiPoints [14, 13, 12, 11, 10, 9, 8, 7, 6, 5, 4, 3, 2, 1] = [(13, 0)] := by
  with_unfolding_all decide

/-- Claim C7 (amended): RSI(14) omits every point whose rolling loss mean is
exactly zero, and omits the first 13 points (window − 1: the undefined first
delta is coerced to zero by the mask, so the 14th point is already defined);
on a strictly monotonically increasing close series the output is empty. -/
theorem rsi_boundary_amended (xs : List ℚ) :
    (∀ i, i < 13 → rsiAt xs i = none) ∧
    (∀ i, lossMeanAt xs i = some 0 → rsiAt xs i = none) ∧
    (List.Chain' (· < ·) xs → rsiPoints xs = []) :=
  ⟨fun i hi => rsiAt_eq_none_of_lt_13 xs i hi,
   fun i hl => rsiAt_of_lossMean_zero xs i hl,
   fun h => rsiPoints_nil_of_chain xs h⟩

/-- Witness for C7 (amended), on the strictly increasing series 1‥15. -/
theorem rsi_boundary_amended_witness :
    rsiAt [1, 2, 3, 4, 5, 6, 7, 8, 9, 10, 11, 12, 13, 14, 15] 5 = none ∧
    rsiAt [1, 2, 3, 4, 5, 6, 7, 8, 9, 10, 11, 12, 13, 14, 15] 13 = none ∧
    rsiPoints [1, 2, 3, 4, 5, 6, 7, 8, 9, 10, 11, 12, 13, 14, 15] = [] := by
  have h := rsi_boundary_amended [1, 2, 3, 4, 5, 6, 7, 8, 9, 10, 11, 12, 13, 14, 15]
  refine ⟨h.1 5 (by decide), h.2.1 13 (by with_unfolding_all decide), h.2.2 ?_⟩
  simp only [List.chain'_cons, List.chain'_singleton, and_true]
  norm_num

/-- Claim C8: wherever the Bollinger upper band, lower band and rolling
sample standard deviation are all defined, the band width is exactly
`2 × num_std × std` (window 20, num_std 2), for every square-root map. -/
theorem bollinger_band_width (sqrtFn : ℚ → ℚ) (xs : List ℚ) (i : Nat)
    (u l s : ℚ)
    (hu : bollUpperAt sqrtFn xs 20 2 i = some u)
    (hl : bollLowerAt sqrtFn xs 20 2 i = some l)
    (hs : stdAt sqrtFn xs 20 i = some s) :
    u - l = 2 * 2 * s := by
  unfold bollUpperAt at hu
  unfold bollLowerAt at hl
  rw [hs] at hu hl
  cases hm : smaAt xs 20 i with
  | none =>
    rw [hm] at hu
    cases hu
  | some m =>
    rw [hm] at hu hl
    injection hu with hu
    injection hl with hl
    rw [← hu, ← hl]
    ring

/-- Witness for C8 on the series 1‥20 at position 19 (with the identity
standing in for the square root: sample variance 35). -/
theorem bollinger_band_width_witness :
    bollUpperAt id [1, 2, 3, 4, 5, 6, 7, 8, 9, 10, 11, 12, 13, 14, 15, 16,
      17, 18, 19, 20] 20 2 19 = some (161 / 2) ∧
    bollLowerAt id [1, 2, 3, 4, 5, 6, 7, 8, 9, 10, 11, 12, 13, 14, 15, 16,
      17, 18, 19, 20] 20 2 19 = some (-(119 / 2)) ∧
    stdAt id [1, 2, 3, 4, 5, 6, 7, 8, 9, 10, 11, 12, 13, 14, 15, 16, 17, 18,
      19, 20] 20 19 = some 35 ∧
    (161 / 2 : ℚ) - (-(119 / 2)) = 2 * 2 * 35 :=
  ⟨by with_unfolding_all decide, by with_unfolding_all decide,
   by with_unfolding_all decide,
   bollinger_band_width id
     [1, 2, 3, 4, 5, 6, 7, 8, 9, 10, 11, 12, 13, 14, 15, 16, 17, 18, 19, 20]
     19 (161 / 2) (-(119 / 2)) 35 (by with_unfolding_all decide)
     (by with_unfolding_all decide) (by with_unfolding_all decide)⟩

/-- Claim C10: on a cache miss with TTL > 0, `get_quote` always stores the
response it constructed before returning it (whatever the upstream did);
when every upstream lookup failed that response is the all-`None` quote; and
within the TTL a later call — against *any* upstream behaviour — serves the
cached response without contacting the upstream. -/
theorem get_quote_always_caches (ttl : Int)
    (cache : String → Option (ℚ × QuoteResp)) (ticker : String)
    (now now2 : ℚ) (up up2 : QuoteUpstream)
    (hpos : 0 < ttl)
    (hmiss : (cacheGet ttl cache (strUpper ticker) now).1 = none)
    (hfresh : now2 < now + (ttl : ℚ)) :
    (getQuote ttl cache ticker now up).2.2 = true ∧
    (getQuote ttl cache ticker now up).2.1 (strUpper ticker) =
      some (now + (ttl : ℚ), (getQuote ttl cache ticker now up).1) ∧
    getQuote ttl (getQuote ttl cache ticker now up).2.1 ticker now2 up2 =
      ((getQuote ttl cache ticker now up).1,
       (getQuote ttl cache ticker now up).2.1, false) ∧
    (up.fastInfo = none → up.info = none → up.hist = none →
      (getQuote ttl cache ticker now up).1 = allNoneQuote (strUpper ticker)) := by
  have hns : ¬ ttl ≤ 0 := not_le.mpr hpos
  have hq : getQuote ttl cache ticker now up =
      (quoteRespOf up (strUpper ticker),
       cacheSet ttl (cacheGet ttl cache (strUpper ticker) now).2
         (strUpper ticker) (quoteRespOf up (strUpper ticker)) now, true) := by
    simp only [getQuote]
    rw [hmiss]
  have hstore : (getQuote ttl cache ticker now up).2.1 (strUpper ticker) =
      some (now + (ttl : ℚ), (getQuote ttl cache ticker now up).1) := by
    rw [hq]
    simp [cacheSet, hns]
  refine ⟨by rw [hq], hstore, ?_, ?_⟩
  · have hhit : cacheGet ttl (getQuote ttl cache ticker now up).2.1
        (strUpper ticker) now2 =
        (some (getQuote ttl cache ticker now up).1,
         (getQuote ttl cache ticker now up).2.1) := by
      simp only [cacheGet, if_neg hns, hstore, if_pos hfresh]
    generalize hr1 : (getQuote ttl cache ticker now up).1 = r1 at hhit ⊢
    generalize hs2 : (getQuote ttl cache ticker now up).2.1 = s2 at hhit ⊢
    simp only [getQuote, hhit]
  · intro hf hi hh
    rw [hq]
    show quoteRespOf up (strUpper ticker) = allNoneQuote (strUpper ticker)
    cases up with
    | mk f i2 h2 =>
      cases hf; cases hi; cases hh
      rfl

/-- Witness for C10: a fully failing upstream yields the all-`None` quote;
100 seconds later (TTL 300) the cached copy is served and the upstream — now
healthy — is not contacted. -/
theorem get_quote_always_caches_witness :
    (getQuote 300 (fun _ => none) "aapl" 0 ⟨none, none, none⟩).1 =
      allNoneQuote "AAPL" ∧
    (getQuote 300
        (getQuote 300 (fun _ => none) "aapl" 0 ⟨none, none, none⟩).2.1
        "aapl" 100 ⟨some [("last_price", PyVal.num 5)], none, none⟩).2.2 =
      false := by
  have h := get_quote_always_caches 300 (fun _ => none) "aapl" 0 100
    ⟨none, none, none⟩ ⟨some [("last_price", PyVal.num 5)], none, none⟩
    (by decide) (by decide) (by norm_num)
  constructor
  · have h4 := h.2.2.2 rfl rfl rfl
    rw [h4]
    decide
  · have h3 := h.2.2.1
    rw [h3]

end StockDash
